import Mathlib

/-!
Shallow embedding of the DexScreener pipeline (`DexScreenerV4.py`): the
PostgreSQL-backed TTL cache (`cache_get` / `cache_set`), the per-identifier
rate limiter (`check_rate_limit`), the trading-signal queue
(`publish_signal` / `consume_signals`), and the per-event pipeline
(`process_pair` / `_analyze_data`).

Modelling conventions: each table is a list of rows; `datetime.utcnow()` is
an explicit natural-number clock passed to every operation, and values are
plain data, so Python-level serialization of column values (e.g. the default
JSON serializer rejecting a `datetime`) is represented only through the
store-failure oracle, not re-derived.  `Session.merge` is a keyed upsert;
`Session.add` of a fresh row is an INSERT whose commit raises a duplicate-key
IntegrityError when the table already holds a row with that primary key;
mutating a row the session loaded is an UPDATE on that row.  The external
feature extractor and the anomaly models are an oracle parameter of the
pipeline; exceptions inside the pipeline's try block are modelled by
returning, from the point of failure, the state accumulated so far with a
`none` result.
-/

namespace DexScreener

/-- Scalar JSON values appearing as fields of an event dictionary. -/
inductive Json where
  | null
  | bool (b : Bool)
  | num (n : Int)
  | str (s : String)
deriving DecidableEq

/-- Python truthiness of a scalar value, as used by `if analysis['signal']:`. -/
def Json.truthy : Json → Bool
  | .null => false
  | .bool b => b
  | .num n => n != 0
  | .str s => s != ""

/-- Python string conversion of a scalar value, as used by the f-string
building the cache key `"pair:..."` from `data['address']`. -/
def Json.pyStr : Json → String
  | .null => "None"
  | .bool true => "True"
  | .bool false => "False"
  | .num n => toString n
  | .str s => s

/-- A Python dictionary in insertion order, e.g. an incoming pair event. -/
abbrev Event := List (String × Json)

/-- Dictionary lookup `d[k]`; `none` models a KeyError. -/
def lookupKey (d : Event) (k : String) : Option Json :=
  (d.find? (fun p => decide (p.1 = k))).map (fun p => p.2)

/-- Dictionary update `d[k] = v`: overwrite the key in place if present,
otherwise append it, matching Python dict merge order. -/
def setKey : Event → String → Json → Event
  | [], k, v => [(k, v)]
  | p :: rest, k, v => if p.1 = k then (k, v) :: rest else p :: setKey rest k v

/-- One row of the unlogged `cache_store` table; `key` is the primary key. -/
structure CacheRow (α : Type) where
  key : String
  value : α
  expires : Nat
deriving DecidableEq

/-- Keyed write against `cache_store` (`Session.merge` + commit): replace the
row whose primary key matches, else insert the row. -/
def upsertCache (e : CacheRow α) : List (CacheRow α) → List (CacheRow α)
  | [] => [e]
  | r :: rest => if r.key = e.key then e :: rest else r :: upsertCache e rest

/-- Cache read `cache_get`: the first row for `key` whose `expires` lies
strictly in the future; expired rows are filtered out by the query itself. -/
def cache_get (key : String) (now : Nat) (st : List (CacheRow α)) : Option α :=
  (st.find? (fun r => decide (r.key = key) && decide (now < r.expires))).map
    (fun r => r.value)

/-- Cache write `cache_set`: upsert the key with expiry `now + ttl`. -/
def cache_set (key : String) (value : α) (ttl : Nat) (now : Nat)
    (st : List (CacheRow α)) : List (CacheRow α) :=
  upsertCache ⟨key, value, now + ttl⟩ st

/-- One row of the `rate_limits` table; `identifier` is the primary key. -/
structure RateRow where
  identifier : String
  count : Nat
  expires : Nat
deriving DecidableEq

/-- Keyed write against `rate_limits`: replace the row whose primary key
matches, else insert the row. -/
def upsertRate (e : RateRow) : List RateRow → List RateRow
  | [] => [e]
  | r :: rest => if r.identifier = e.identifier then e :: rest else r :: upsertRate e rest

/-- Read phase of `check_rate_limit`: the query for the identifier's row. -/
def rl_read (identifier : String) (st : List RateRow) : Option RateRow :=
  st.find? (fun r => decide (r.identifier = identifier))

instance {ε α : Type} [DecidableEq ε] [DecidableEq α] :
    DecidableEq (Except ε α) := fun x y =>
  match x, y with
  | .error a, .error b =>
    if h : a = b then .isTrue (congrArg Except.error h)
    else .isFalse (fun hc => h (Except.error.inj hc))
  | .error _, .ok _ => .isFalse (fun hc => Except.noConfusion hc)
  | .ok _, .error _ => .isFalse (fun hc => Except.noConfusion hc)
  | .ok a, .ok b =>
    if h : a = b then .isTrue (congrArg Except.ok h)
    else .isFalse (fun hc => h (Except.ok.inj hc))

/-- The write `check_rate_limit` will attempt, distinguishing the two ORM
operations the source uses: `session.add` of a freshly constructed
`RateLimit` object (an INSERT) on the missing-or-expired branch, versus the
in-place mutation `entry.count += 1` of the row the query returned (an
UPDATE keyed on that row). -/
inductive RateWrite where
  | noWrite
  | insertFresh (e : RateRow)
  | updateCount (e : RateRow)

/-- The duplicate-primary-key error a conflicting INSERT raises at commit. -/
def dupKeyMsg : String :=
  "IntegrityError: duplicate primary key in rate_limits"

/-- Decision phase of `check_rate_limit` on the row the read returned:
yields the boolean outcome and the write to attempt.  A missing or expired
(`expires < now`) window makes the code construct a fresh row with count 1
and `session.add` it; a full window (`count >= limit`) is denied without a
write; otherwise the loaded row's count is incremented in place. -/
def rl_decide (identifier : String) (limit window now : Nat)
    (entry : Option RateRow) : Bool × RateWrite :=
  match entry with
  | none => (true, .insertFresh ⟨identifier, 1, now + window⟩)
  | some e =>
    if e.expires < now then (true, .insertFresh ⟨identifier, 1, now + window⟩)
    else if limit ≤ e.count then (false, .noWrite)
    else (true, .updateCount ⟨identifier, e.count + 1, e.expires⟩)

/-- Write phase of `check_rate_limit`, i.e. the commit.  An INSERT of a
fresh row raises a duplicate-key IntegrityError when the table already holds
a row for the identifier — nothing ever deletes rate rows, so this is what
resetting an existing expired window does — and the failed transaction
leaves the table unchanged.  An UPDATE of the loaded row replaces that row
in place. -/
def rl_write : RateWrite → List RateRow → Except String (List RateRow)
  | .noWrite, st => .ok st
  | .insertFresh e, st =>
    if st.any (fun r => decide (r.identifier = e.identifier)) then
      .error dupKeyMsg
    else .ok (st ++ [e])
  | .updateCount e, st => .ok (upsertRate e st)

/-- `check_rate_limit(identifier, limit, window)`: the sequential composition
read, decide, write of the three phases against the rate table; a raising
commit propagates to the caller as the error case. -/
def check_rate_limit (identifier : String) (limit window now : Nat)
    (st : List RateRow) : Except String (Bool × List RateRow) :=
  let d := rl_decide identifier limit window now (rl_read identifier st)
  match rl_write d.2 st with
  | .ok st2 => .ok (d.1, st2)
  | .error m => .error m

/-- The window the table currently stores for an identifier. -/
def windowFor (identifier : String) (st : List RateRow) : Option RateRow :=
  rl_read identifier st

/-- Two concurrent `check_rate_limit` callers for the same identifier whose
phases interleave as read A, read B, write A, write B: both decisions are
taken against the same initial row, as nothing in the source makes the
read-decide-write sequence one atomic unit.  Each caller's outcome is its
returned boolean or the exception its commit raised; a failed commit leaves
the table as it was for the next write. -/
def race_two (identifier : String) (limit window now : Nat)
    (st : List RateRow) :
    Except String Bool × Except String Bool × List RateRow :=
  let eA := rl_read identifier st
  let eB := rl_read identifier st
  let dA := rl_decide identifier limit window now eA
  let dB := rl_decide identifier limit window now eB
  match rl_write dA.2 st with
  | .error m =>
    match rl_write dB.2 st with
    | .error m2 => (.error m, .error m2, st)
    | .ok stB => (.error m, .ok dB.1, stB)
  | .ok stA =>
    match rl_write dB.2 stA with
    | .error m2 => (.ok dA.1, .error m2, stA)
    | .ok stB => (.ok dA.1, .ok dB.1, stB)

/-- One row of the `trading_signals` table; `id` is the auto-increment
primary key and `created_at` is filled from the clock on insert. -/
structure SignalRow (α : Type) where
  id : Nat
  channel : String
  message : α
  created_at : Nat
deriving DecidableEq

/-- The `trading_signals` table plus the auto-increment id sequence. -/
structure BusState (α : Type) where
  rows : List (SignalRow α)
  nextId : Nat
deriving DecidableEq

/-- The empty signal table. -/
def emptyBus : BusState α := ⟨[], 0⟩

/-- `publish_signal(channel, message)`: append a row with the next id and the
current clock, then commit (the NOTIFY wake-up carries no table state). -/
def publish_signal (channel : String) (message : α) (now : Nat)
    (st : BusState α) : BusState α :=
  ⟨st.rows ++ [⟨st.nextId, channel, message, now⟩], st.nextId + 1⟩

/-- Row order used by the consume query `ORDER BY created_at`. -/
def busLe (a b : SignalRow α) : Prop :=
  a.created_at ≤ b.created_at

instance : DecidableRel (@busLe α) :=
  fun a b => Nat.decLe a.created_at b.created_at

instance : IsTotal (SignalRow α) busLe :=
  ⟨fun a b => Nat.le_total a.created_at b.created_at⟩

instance : IsTrans (SignalRow α) busLe :=
  ⟨fun _ _ _ hab hbc => Nat.le_trans hab hbc⟩

/-- Every result the consume query may return for a channel: the query is
`ORDER BY created_at` with no id column, and PostgreSQL guarantees no
particular order among rows with equal sort keys, so any
`created_at`-ascending arrangement of the channel's rows, truncated to the
query's `limit(100)`, is an admissible result set. -/
def consumeAdmissible (channel : String) (st : BusState α)
    (out : List (SignalRow α)) : Prop :=
  ∃ l, List.Perm l (st.rows.filter (fun r => decide (r.channel = channel)))
    ∧ l.Pairwise busLe ∧ out = l.take 100

/-- The rows one execution of `consume_signals(channel)` reads: the
channel's rows in `created_at` order, capped by the query's fixed
`limit(100)`.  The table is modelled in insertion order and this sort is
stable, which fixes one admissible tie order (store-assigned id order); the
SQL itself guarantees no order among equal `created_at` values — the full
set of possible results is `consumeAdmissible`. -/
def consumedRows (channel : String) (st : BusState α) : List (SignalRow α) :=
  (List.insertionSort busLe
    (st.rows.filter (fun r => decide (r.channel = channel)))).take 100

/-- `consume_signals(channel)`: yield the batch's payloads and delete the
batch's rows, then commit. -/
def consume_signals (channel : String) (st : BusState α) :
    List α × BusState α :=
  let msgs := consumedRows channel st
  (msgs.map (fun m => m.message),
   ⟨st.rows.filter (fun r => decide (¬ r.id ∈ msgs.map (fun m => m.id))),
    st.nextId⟩)

/-- A sequence of `publish_signal` calls, each with its channel, payload and
clock value, applied in order. -/
def applyPubs : List (String × α × Nat) → BusState α → BusState α
  | [], st => st
  | p :: rest, st => applyPubs rest (publish_signal p.1 p.2.1 p.2.2 st)

/-- The channel, payload and timestamp of a stored signal row, i.e. the part
of the row that came from the `publish_signal` call that inserted it. -/
def sigProj (r : SignalRow α) : String × α × Nat :=
  (r.channel, r.message, r.created_at)

/-- The store-backed state `process_pair` reads and writes: the cache table,
the rate table and the signal table. -/
structure AnalyzerState where
  cache : List (CacheRow Event)
  rate : List RateRow
  bus : BusState Event
deriving DecidableEq

/-- Modelled from the spec: the feature extractor (`_extract_features`) and
the two anomaly models (`models['pump_detect']` / `models['rug_detect']`,
whose `score_samples` yields `pump_prob` and `rug_prob`) are external
collaborators, not part of the core source.  They are combined into the
oracle `score`, which either returns the pair of scores or fails with an
analysis error.  `cacheStoreOk` and `publishOk` model whether the cache
store and the publish step raise — covering store unavailability as well as
value-level failures of those commits, such as the JSON column's default
serializer rejecting a stored value. -/
structure Env where
  score : Event → Except String (Json × Json)
  cacheStoreOk : Bool
  publishOk : Bool

/-- The outcome of one `process_pair` call: the value returned to the caller
(`none` is Python's None), the resulting store state, and whether the
analysis step was invoked. -/
structure ProcOut where
  ret : Option Event
  st : AnalyzerState
  analyzed : Bool
deriving DecidableEq

/-- `_analyze_data(data)`: merge the event's fields with the two model
scores and a timestamp, in Python merge order. -/
def _analyze_data (data : Event) (pump rug : Json) (now : Nat) : Event :=
  setKey (setKey (setKey data "pump_prob" pump) "rug_prob" rug)
    "timestamp" (Json.num (Int.ofNat now))

/-- Continuation of `process_pair` past the cache check: analysis, cache
store, and the publish gate `if analysis['signal']:`.  Any step's exception
(analysis failure, cache-store failure, missing `'signal'` key, publish
failure) is caught by the surrounding `except`, which returns None with the
state reached so far. -/
def runAnalysis (env : Env) (now : Nat) (data : Event) (cache_key : String)
    (st : AnalyzerState) : ProcOut :=
  match env.score data with
  | .error _ => ⟨none, st, true⟩
  | .ok (p, r) =>
    let analysis := _analyze_data data p r now
    if env.cacheStoreOk then
      let cache2 := cache_set cache_key analysis 3600 now st.cache
      let bus2 :=
        match lookupKey analysis "signal" with
        | some s =>
          if s.truthy && env.publishOk then
            publish_signal "trading" analysis now st.bus
          else st.bus
        | none => st.bus
      ⟨none, ⟨cache2, st.rate, bus2⟩, true⟩
    else ⟨none, st, true⟩

/-- `process_pair(data)`: rate check with the fixed policy
`('api_requests', 10, 1)` — a raising rate-check commit is caught by the
blanket handler, leaving the table unchanged — then cache lookup for
`"pair:" + data['address']` (a truthy cached value is returned as is; note
the walrus `if cached :=` treats a cached empty dict as a miss), then the
analysis continuation.  A missing `'address'` key is a KeyError caught by
the same blanket handler. -/
def process_pair (env : Env) (now : Nat) (data : Event) (st : AnalyzerState) :
    ProcOut :=
  match check_rate_limit "api_requests" 10 1 now st.rate with
  | .error _ => ⟨none, st, false⟩
  | .ok rl =>
    let st1 : AnalyzerState := ⟨st.cache, rl.2, st.bus⟩
    if rl.1 then
      match lookupKey data "address" with
      | none => ⟨none, st1, false⟩
      | some addr =>
        let cache_key := "pair:" ++ addr.pyStr
        match cache_get cache_key now st1.cache with
        | some cached =>
          if cached.isEmpty then runAnalysis env now data cache_key st1
          else ⟨some cached, st1, false⟩
        | none => runAnalysis env now data cache_key st1
    else ⟨none, st1, false⟩

/-- Demo oracle whose anomaly scores always succeed. -/
def demoScoreOk : Env :=
  ⟨fun _ => Except.ok (Json.num 7, Json.num 8), true, true⟩

/-- Demo oracle whose analysis step always raises. -/
def demoScoreFail : Env :=
  ⟨fun _ => Except.error "model failure", true, true⟩

/-- Demo oracle whose publish step always raises. -/
def demoNoPub : Env :=
  ⟨fun _ => Except.ok (Json.num 7, Json.num 8), true, false⟩

/-- Demo incoming pair event carrying a truthy signal flag. -/
def demoEvent : Event :=
  [("address", Json.str "0xabc"), ("signal", Json.bool true)]

/-- Demo incoming pair event for a second, unrelated pair. -/
def demoEvent2 : Event :=
  [("address", Json.str "0xeee"), ("signal", Json.bool true)]

/-- Demo incoming pair event with no signal key at all. -/
def demoEventNoSignal : Event :=
  [("address", Json.str "0xdef")]

/-- Demo pipeline state with all three tables empty. -/
def demoState : AnalyzerState :=
  ⟨[], [], emptyBus⟩

/-! Helper lemmas about dictionaries. -/

theorem lookupKey_cons (p : String × Json) (l : Event) (k : String) :
    lookupKey (p :: l) k = if p.1 = k then some p.2 else lookupKey l k := by
  by_cases h : p.1 = k
  · rw [if_pos h]
    unfold lookupKey
    rw [List.find?_cons_of_pos _ (by simpa using h)]
    rfl
  · rw [if_neg h]
    unfold lookupKey
    rw [List.find?_cons_of_neg _ (by simpa using h)]

theorem lookup_setKey_self (d : Event) (k : String) (v : Json) :
    lookupKey (setKey d k v) k = some v := by
  induction d with
  | nil => simp [setKey, lookupKey_cons, lookupKey]
  | cons p rest ih =>
    by_cases h : p.1 = k
    · simp [setKey, h, lookupKey_cons]
    · simp [setKey, h, lookupKey_cons, ih]

theorem lookup_setKey_ne (d : Event) (k k' : String) (v : Json) (h : k' ≠ k) :
    lookupKey (setKey d k v) k' = lookupKey d k' := by
  have h' : ¬ (k = k') := fun hh => h hh.symm
  induction d with
  | nil => simp [setKey, lookupKey_cons, lookupKey, h']
  | cons p rest ih =>
    by_cases hp : p.1 = k
    · have hp' : ¬ (k = k') := fun hh => h hh.symm
      simp [setKey, hp, lookupKey_cons, hp', hp ▸ hp']
    · simp [setKey, hp, lookupKey_cons, ih]

theorem setKey_isEmpty (d : Event) (k : String) (v : Json) :
    (setKey d k v).isEmpty = false := by
  cases d with
  | nil => rfl
  | cons p rest =>
    unfold setKey
    split <;> rfl

/-! Helper lemmas about the cache table. -/

theorem cache_get_cons (r : CacheRow α) (l : List (CacheRow α))
    (key : String) (now : Nat) :
    cache_get key now (r :: l)
      = if r.key = key ∧ now < r.expires then some r.value
        else cache_get key now l := by
  by_cases h : r.key = key ∧ now < r.expires
  · rw [if_pos h]
    unfold cache_get
    rw [List.find?_cons_of_pos _ (by simp [h.1, h.2])]
    rfl
  · rw [if_neg h]
    unfold cache_get
    rw [List.find?_cons_of_neg _ (by simpa [Decidable.not_and_iff_or_not] using h)]

theorem cache_get_upsert_self (key : String) (now : Nat) (v : α) (exp : Nat)
    (st : List (CacheRow α)) (h : now < exp) :
    cache_get key now (upsertCache ⟨key, v, exp⟩ st) = some v := by
  induction st with
  | nil => simp [upsertCache, cache_get_cons, h]
  | cons r rest ih =>
    by_cases hr : r.key = key
    · simp [upsertCache, hr, cache_get_cons, h]
    · simp [upsertCache, hr, cache_get_cons, ih]

theorem mem_upsertCache (b e : CacheRow α) (st : List (CacheRow α)) :
    b ∈ upsertCache e st → b = e ∨ b ∈ st := by
  induction st with
  | nil => intro h; simpa [upsertCache] using h
  | cons r rest ih =>
    intro h
    by_cases hr : r.key = e.key
    · simp only [upsertCache, if_pos hr, List.mem_cons] at h
      rcases h with h | h
      · exact Or.inl h
      · exact Or.inr (List.mem_cons_of_mem _ h)
    · simp only [upsertCache, if_neg hr, List.mem_cons] at h
      rcases h with h | h
      · exact Or.inr (h ▸ List.mem_cons_self _ _)
      · rcases ih h with h' | h'
        · exact Or.inl h'
        · exact Or.inr (List.mem_cons_of_mem _ h')

theorem upsertCache_pairwise (e : CacheRow α) (st : List (CacheRow α))
    (hu : st.Pairwise (fun a b => a.key ≠ b.key)) :
    (upsertCache e st).Pairwise (fun a b => a.key ≠ b.key) := by
  induction st with
  | nil => simp [upsertCache]
  | cons r rest ih =>
    rw [List.pairwise_cons] at hu
    obtain ⟨hr, hrest⟩ := hu
    by_cases hk : r.key = e.key
    · simp only [upsertCache, if_pos hk]
      rw [List.pairwise_cons]
      exact ⟨fun b hb => hk ▸ hr b hb, hrest⟩
    · simp only [upsertCache, if_neg hk]
      rw [List.pairwise_cons]
      refine ⟨fun b hb => ?_, ih hrest⟩
      rcases mem_upsertCache b e rest hb with h' | h'
      · exact h' ▸ hk
      · exact hr b h'

theorem upsertCache_filter (e : CacheRow α) (st : List (CacheRow α))
    (hu : st.Pairwise (fun a b => a.key ≠ b.key)) :
    (upsertCache e st).filter (fun r => decide (r.key = e.key)) = [e] := by
  induction st with
  | nil => simp [upsertCache]
  | cons r rest ih =>
    rw [List.pairwise_cons] at hu
    obtain ⟨hr, hrest⟩ := hu
    by_cases hk : r.key = e.key
    · simp only [upsertCache, if_pos hk]
      rw [List.filter_cons_of_pos (by simp)]
      have : rest.filter (fun r => decide (r.key = e.key)) = [] := by
        rw [List.filter_eq_nil_iff]
        intro a ha
        simp [hk ▸ (hr a ha : r.key ≠ a.key).symm]
      simp [this]
    · simp only [upsertCache, if_neg hk]
      rw [List.filter_cons_of_neg (by simp [hk]), ih hrest]

/-! Helper lemmas about the rate table. -/

theorem rl_read_upsert (e : RateRow) (st : List RateRow) :
    rl_read e.identifier (upsertRate e st) = some e := by
  induction st with
  | nil => simp [upsertRate, rl_read]
  | cons r rest ih =>
    by_cases hr : r.identifier = e.identifier
    · simp [upsertRate, hr, rl_read]
    · simp only [upsertRate, if_neg hr]
      unfold rl_read at ih ⊢
      rw [List.find?_cons_of_neg _ (by simpa using hr)]
      exact ih

theorem rl_read_append (identifier : String) (st : List RateRow) (e : RateRow)
    (he : e.identifier = identifier) (h : rl_read identifier st = none) :
    rl_read identifier (st ++ [e]) = some e := by
  induction st with
  | nil => simp [rl_read, he]
  | cons r rest ih =>
    by_cases hr : r.identifier = identifier
    · exfalso
      unfold rl_read at h
      rw [List.find?_cons_of_pos _ (by simpa using hr)] at h
      exact Option.noConfusion h
    · unfold rl_read at h ⊢
      rw [List.find?_cons_of_neg _ (by simpa using hr)] at h
      rw [List.cons_append, List.find?_cons_of_neg _ (by simpa using hr)]
      exact ih h

theorem any_of_rl_read_some (identifier : String) (st : List RateRow)
    (e : RateRow) (h : rl_read identifier st = some e) :
    st.any (fun r => decide (r.identifier = identifier)) = true := by
  unfold rl_read at h
  rw [List.any_eq_true]
  exact ⟨e, List.mem_of_find?_eq_some h, by simpa using List.find?_some h⟩

theorem any_of_rl_read_none (identifier : String) (st : List RateRow)
    (h : rl_read identifier st = none) :
    st.any (fun r => decide (r.identifier = identifier)) = false := by
  unfold rl_read at h
  rw [List.find?_eq_none] at h
  simpa using h

/-! Helper lemmas about the pipeline. -/

theorem runAnalysis_ret (env : Env) (now : Nat) (data : Event)
    (cache_key : String) (st : AnalyzerState) :
    (runAnalysis env now data cache_key st).ret = none := by
  unfold runAnalysis
  split
  · rfl
  · split <;> rfl

theorem runAnalysis_analyzed (env : Env) (now : Nat) (data : Event)
    (cache_key : String) (st : AnalyzerState) :
    (runAnalysis env now data cache_key st).analyzed = true := by
  unfold runAnalysis
  split
  · rfl
  · split <;> rfl

theorem runAnalysis_rate (env : Env) (now : Nat) (data : Event)
    (cache_key : String) (st : AnalyzerState) :
    (runAnalysis env now data cache_key st).st.rate = st.rate := by
  unfold runAnalysis
  split
  · rfl
  · split <;> rfl

theorem runAnalysis_cache_ok (env : Env) (now : Nat) (data : Event)
    (cache_key : String) (st : AnalyzerState) (p r : Json)
    (hs : env.score data = Except.ok (p, r)) (hc : env.cacheStoreOk = true) :
    (runAnalysis env now data cache_key st).st.cache
      = cache_set cache_key (_analyze_data data p r now) 3600 now st.cache := by
  unfold runAnalysis
  rw [hs, hc]
  simp only [if_true]

theorem runAnalysis_fail (env : Env) (now : Nat) (data : Event)
    (cache_key : String) (st : AnalyzerState) (m : String)
    (hs : env.score data = Except.error m) :
    runAnalysis env now data cache_key st = ⟨none, st, true⟩ := by
  unfold runAnalysis
  rw [hs]

theorem runAnalysis_bus_nopub (env : Env) (now : Nat) (data : Event)
    (cache_key : String) (st : AnalyzerState)
    (hp : env.publishOk = false) :
    (runAnalysis env now data cache_key st).st.bus = st.bus := by
  unfold runAnalysis
  split
  · rfl
  · split
    · dsimp only
      split
      · simp [hp]
      · rfl
    · rfl

theorem runAnalysis_bus_pub (env : Env) (now : Nat) (data : Event)
    (cache_key : String) (st : AnalyzerState) (p r : Json) (sv : Json)
    (hs : env.score data = Except.ok (p, r)) (hc : env.cacheStoreOk = true)
    (hl : lookupKey (_analyze_data data p r now) "signal" = some sv) :
    (runAnalysis env now data cache_key st).st.bus
      = if sv.truthy && env.publishOk then
          publish_signal "trading" (_analyze_data data p r now) now st.bus
        else st.bus := by
  unfold runAnalysis
  rw [hs, hc]
  simp only [if_true, hl]

theorem runAnalysis_bus_nosignal (env : Env) (now : Nat) (data : Event)
    (cache_key : String) (st : AnalyzerState) (p r : Json)
    (hs : env.score data = Except.ok (p, r)) (hc : env.cacheStoreOk = true)
    (hl : lookupKey (_analyze_data data p r now) "signal" = none) :
    (runAnalysis env now data cache_key st).st.bus = st.bus := by
  unfold runAnalysis
  rw [hs, hc]
  simp only [if_true, hl]

/-! Helper lemmas about the signal table. -/

theorem applyPubs_proj (pubs : List (String × α × Nat)) :
    ∀ st : BusState α,
      ((applyPubs pubs st).rows).map sigProj = st.rows.map sigProj ++ pubs := by
  induction pubs with
  | nil => intro st; simp [applyPubs]
  | cons p rest ih =>
    intro st
    rw [applyPubs, ih]
    simp [publish_signal, sigProj]

theorem consumedRows_subset (ch : String) (st : BusState α) :
    ∀ r ∈ consumedRows ch st, r ∈ st.rows := by
  intro r hr
  have h1 : r ∈ List.insertionSort busLe
      (st.rows.filter (fun q => decide (q.channel = ch))) :=
    List.take_subset _ _ hr
  have h2 : r ∈ st.rows.filter (fun q => decide (q.channel = ch)) :=
    (List.perm_insertionSort busLe _).subset h1
  exact List.mem_of_mem_filter h2

theorem sorted_perm_eq_of_strict :
    ∀ (l2 l1 : List (SignalRow α)), List.Perm l1 l2 →
      l1.Pairwise busLe →
      l2.Pairwise (fun a b => a.created_at < b.created_at) →
      l1 = l2 := by
  intro l2
  induction l2 with
  | nil =>
    intro l1 hp _ _
    exact hp.eq_nil
  | cons b t2 ih =>
    intro l1 hp h1 h2
    cases l1 with
    | nil => simpa using hp.symm.eq_nil
    | cons a t1 =>
      have hab : a = b := by
        rcases List.mem_cons.mp (hp.subset (List.mem_cons_self a t1))
          with h | h
        · exact h
        · have hba : b.created_at < a.created_at :=
            (List.pairwise_cons.mp h2).1 a h
          rcases List.mem_cons.mp (hp.symm.subset (List.mem_cons_self b t2))
            with h' | h'
          · exact h'.symm
          · have hle : a.created_at ≤ b.created_at :=
              (List.pairwise_cons.mp h1).1 b h'
            omega
      subst hab
      rw [ih t1 hp.cons_inv (List.pairwise_cons.mp h1).2
        (List.pairwise_cons.mp h2).2]

theorem consumedRows_admissible (ch : String) (st : BusState α) :
    consumeAdmissible ch st (consumedRows ch st) :=
  ⟨List.insertionSort busLe
      (st.rows.filter (fun r => decide (r.channel = ch))),
   List.perm_insertionSort busLe _,
   List.sorted_insertionSort busLe _,
   rfl⟩

theorem process_pair_run (env : Env) (now : Nat) (data : Event)
    (st : AnalyzerState) (addr : Json) (rt : List RateRow)
    (h1 : check_rate_limit "api_requests" 10 1 now st.rate
      = Except.ok (true, rt))
    (h2 : lookupKey data "address" = some addr)
    (h3 : cache_get ("pair:" ++ addr.pyStr) now st.cache = none) :
    process_pair env now data st
      = runAnalysis env now data ("pair:" ++ addr.pyStr)
          ⟨st.cache, rt, st.bus⟩ := by
  unfold process_pair
  rw [h1]
  simp only [h2, h3, if_true]

theorem process_pair_hit (env : Env) (now : Nat) (data : Event)
    (st : AnalyzerState) (addr : Json) (c : Event) (rt : List RateRow)
    (h1 : check_rate_limit "api_requests" 10 1 now st.rate
      = Except.ok (true, rt))
    (h2 : lookupKey data "address" = some addr)
    (h3 : cache_get ("pair:" ++ addr.pyStr) now st.cache = some c)
    (h4 : c.isEmpty = false) :
    process_pair env now data st
      = ⟨some c, ⟨st.cache, rt, st.bus⟩, false⟩ := by
  unfold process_pair
  rw [h1]
  simp only [h2, h3, h4, if_true, Bool.false_eq_true, if_false]

/-! Claim theorems. -/

/-- Claim C3 as stated is false: the consume query is `ORDER BY created_at`
with no id column, and the engine guarantees no order among equal sort keys,
so for two messages published with equal `created_at` the reversed order is
an admissible query result whose payload sequence differs from publish
order — the `(createdAt, id)` tie-break the claim asserts is not enforced by
the program. -/
theorem c3_counterexample :
    consumeAdmissible "t"
      (applyPubs [("t", Json.num 1, 5), ("t", Json.num 2, 5)] emptyBus)
      [⟨1, "t", Json.num 2, 5⟩, ⟨0, "t", Json.num 1, 5⟩]
    ∧ ([(⟨1, "t", Json.num 2, 5⟩ : SignalRow Json),
        ⟨0, "t", Json.num 1, 5⟩].map (fun m => m.message)
      ≠ [Json.num 1, Json.num 2]) :=
  ⟨⟨[⟨1, "t", Json.num 2, 5⟩, ⟨0, "t", Json.num 1, 5⟩],
    by decide, by decide, by decide⟩, by decide⟩

/-- Claim C3 amended: consume returns a channel's messages in ascending
`created_at` order (capped at 100), but the relative order of messages with
equal `created_at` is unspecified — the query has no id tie-break.  When the
publish clock values are strictly increasing, so that no ties exist, every
admissible consume result is exactly the publish order. -/
theorem c3_consume_order_amended (pubs : List (String × α × Nat))
    (ch : String) (out : List (SignalRow α))
    (hstrict : (pubs.map (fun p => p.2.2)).Pairwise (fun a b => a < b))
    (hadm : consumeAdmissible ch (applyPubs pubs emptyBus) out) :
    out.map (fun m => m.message)
      = ((pubs.filter (fun p => decide (p.1 = ch))).map
          (fun p => p.2.1)).take 100 := by
  obtain ⟨l, hperm, hsorted, hout⟩ := hadm
  have hproj : ((applyPubs pubs (emptyBus : BusState α)).rows).map sigProj
      = pubs := by
    simpa [emptyBus] using applyPubs_proj pubs (emptyBus : BusState α)
  have htimes : ((applyPubs pubs (emptyBus : BusState α)).rows).map
      (fun r => r.created_at) = pubs.map (fun p => p.2.2) := by
    have hmm : ((applyPubs pubs (emptyBus : BusState α)).rows).map
        (fun r => r.created_at)
        = (((applyPubs pubs (emptyBus : BusState α)).rows).map sigProj).map
            (fun q => q.2.2) := by
      rw [List.map_map]
      rfl
    rw [hmm, hproj]
  have hrows : ((applyPubs pubs (emptyBus : BusState α)).rows).Pairwise
      (fun a b => a.created_at < b.created_at) := by
    have hs := hstrict
    rw [← htimes] at hs
    have hs2 : ((applyPubs pubs (emptyBus : BusState α)).rows).Pairwise
        (fun a b => a.created_at < b.created_at) := List.pairwise_map.mp hs
    exact hs2
  have hfil : (((applyPubs pubs (emptyBus : BusState α)).rows).filter
      (fun r => decide (r.channel = ch))).Pairwise
      (fun a b => a.created_at < b.created_at) :=
    hrows.filter _
  have hl : l = ((applyPubs pubs (emptyBus : BusState α)).rows).filter
      (fun r => decide (r.channel = ch)) :=
    sorted_perm_eq_of_strict _ l hperm hsorted hfil
  rw [hout, hl, List.map_take]
  conv_rhs => rw [← hproj, List.filter_map, List.map_map]
  rfl

/-- Witness for C3's amended claim at a strictly increasing publish
sequence with an interleaved foreign channel, taking the implemented
consume's own result as the admissible one. -/
theorem c3_witness :
    (consumedRows "t" (applyPubs
      [("t", Json.num 1, 5), ("x", Json.num 9, 6), ("t", Json.num 2, 7),
       ("t", Json.num 3, 8)] emptyBus)).map (fun m => m.message)
      = [Json.num 1, Json.num 2, Json.num 3] :=
  (c3_consume_order_amended
    [("t", Json.num 1, 5), ("x", Json.num 9, 6), ("t", Json.num 2, 7),
     ("t", Json.num 3, 8)] "t" _ (by decide)
    (consumedRows_admissible "t" _)).trans (by decide)

/-- Claim C4 as stated is false: `consume_signals` has no `maxBatch`
parameter — the batch bound is the query's fixed `limit(100)` — so a caller
wanting a batch bound of 1 still receives every queued message (here 2). -/
theorem c4_counterexample :
    (consume_signals "t" (applyPubs
      [("t", Json.num 1, 0), ("t", Json.num 2, 0)] emptyBus)).1.length = 2
    ∧ ¬ ((consume_signals "t" (applyPubs
      [("t", Json.num 1, 0), ("t", Json.num 2, 0)] emptyBus)).1.length ≤ 1)
    := by decide

/-- Claim C4 amended: a `consume_signals(channel)` call returns at most 100
messages (the fixed batch bound, not a caller-chosen one), every returned
message's row is deleted from the store, and no subsequent consume on the
channel can return a row with any consumed id. -/
theorem c4_consume_batch_amended (ch : String) (st : BusState α) :
    (consume_signals ch st).1.length ≤ 100 ∧
    (∀ r, r ∈ consumedRows ch st →
      ∀ q, q ∈ (consume_signals ch st).2.rows → q.id ≠ r.id) ∧
    (∀ r, r ∈ consumedRows ch st →
      ∀ q, q ∈ consumedRows ch (consume_signals ch st).2 → q.id ≠ r.id) := by
  have hdel : ∀ r, r ∈ consumedRows ch st →
      ∀ q, q ∈ (consume_signals ch st).2.rows → q.id ≠ r.id := by
    intro r hr q hq
    have hq' := List.of_mem_filter hq
    have hnot : ¬ q.id ∈ (consumedRows ch st).map (fun m => m.id) :=
      of_decide_eq_true hq'
    intro heq
    exact hnot (heq ▸ List.mem_map_of_mem (fun m => m.id) hr)
  refine ⟨?_, hdel, ?_⟩
  · show ((consumedRows ch st).map (fun m => m.message)).length ≤ 100
    rw [List.length_map, consumedRows, List.length_take]
    exact min_le_left _ _
  · intro r hr q hq
    exact hdel r hr q (consumedRows_subset ch _ q hq)

/-- Witness for C4's amended claim on a concrete two-channel store: the
batch is within the bound and the surviving foreign-channel row has an id
different from the consumed one. -/
theorem c4_witness :
    (consume_signals "t" (applyPubs
      [("t", Json.num 1, 0), ("x", Json.num 9, 0)] emptyBus)).1.length ≤ 100
    ∧ (⟨1, "x", Json.num 9, 0⟩ : SignalRow Json).id
        ≠ (⟨0, "t", Json.num 1, 0⟩ : SignalRow Json).id :=
  ⟨(c4_consume_batch_amended "t" (applyPubs
      [("t", Json.num 1, 0), ("x", Json.num 9, 0)] emptyBus)).1,
   (c4_consume_batch_amended "t" (applyPubs
      [("t", Json.num 1, 0), ("x", Json.num 9, 0)] emptyBus)).2.1
     ⟨0, "t", Json.num 1, 0⟩ (by decide) ⟨1, "x", Json.num 9, 0⟩ (by decide)⟩

/-- Claim C1 as stated is false on two counts.  At the window boundary
(`now = windowExpiresAt`, full count) the claim mandates replacement with
count 1 and `true`, but the code's test is `entry.expires < now`, so it
takes the still-active branch, returns `false` and leaves the row.  And once
`now` is strictly past the expiry, the claim's "replace" is actually a
`session.add` of a fresh row whose primary key the table already holds, so
the commit raises a duplicate-key error instead of replacing and returning
`true`. -/
theorem c1_counterexample :
    check_rate_limit "api" 1 5 100 [⟨"api", 1, 100⟩]
      = Except.ok (false, [⟨"api", 1, 100⟩])
    ∧ check_rate_limit "api" 1 5 100 [⟨"api", 1, 100⟩]
      ≠ Except.ok (true, [⟨"api", 1, 105⟩])
    ∧ check_rate_limit "api" 1 5 101 [⟨"api", 1, 100⟩]
      = Except.error dupKeyMsg := by decide

/-- Claim C1 amended: when no window row exists the call inserts a fresh
window with count 1 and returns true; when a row exists and
`now > windowExpiresAt` (strictly after expiry) the code's attempted
replacement INSERTs a duplicate primary key and the commit raises, leaving
the stored window unchanged and returning nothing; at
`now ≤ windowExpiresAt` a full window is denied without mutation, and a
non-full one has its count incremented by exactly one (expiry kept) with a
true result. -/
theorem c1_check_rate_limit_amended (identifier : String)
    (limit window now : Nat) (st : List RateRow) :
    (windowFor identifier st = none →
      check_rate_limit identifier limit window now st
        = Except.ok (true, st ++ [⟨identifier, 1, now + window⟩]) ∧
      windowFor identifier (st ++ [⟨identifier, 1, now + window⟩])
        = some ⟨identifier, 1, now + window⟩) ∧
    (∀ e, windowFor identifier st = some e →
      (e.expires < now →
        check_rate_limit identifier limit window now st
          = Except.error dupKeyMsg) ∧
      (now ≤ e.expires → limit ≤ e.count →
        check_rate_limit identifier limit window now st
          = Except.ok (false, st)) ∧
      (now ≤ e.expires → e.count < limit →
        check_rate_limit identifier limit window now st
          = Except.ok (true, upsertRate ⟨identifier, e.count + 1, e.expires⟩ st) ∧
        windowFor identifier (upsertRate ⟨identifier, e.count + 1, e.expires⟩ st)
          = some ⟨identifier, e.count + 1, e.expires⟩)) := by
  constructor
  · intro hnone
    rw [windowFor] at hnone
    have hany := any_of_rl_read_none identifier st hnone
    refine ⟨?_, rl_read_append identifier st _ rfl hnone⟩
    simp only [check_rate_limit, hnone, rl_decide, rl_write, hany,
      Bool.false_eq_true, if_false]
  · intro e hsome
    rw [windowFor] at hsome
    have hany := any_of_rl_read_some identifier st e hsome
    refine ⟨?_, ?_, ?_⟩
    · intro hexp
      simp only [check_rate_limit, hsome, rl_decide, if_pos hexp, rl_write,
        hany, if_true]
    · intro hnexp hfull
      have hlt : ¬ e.expires < now := by omega
      simp only [check_rate_limit, hsome, rl_decide, if_neg hlt,
        if_pos hfull, rl_write]
    · intro hnexp hroom
      have hlt : ¬ e.expires < now := by omega
      have hfull : ¬ limit ≤ e.count := by omega
      refine ⟨?_, rl_read_upsert ⟨identifier, e.count + 1, e.expires⟩ st⟩
      simp only [check_rate_limit, hsome, rl_decide, if_neg hlt,
        if_neg hfull, rl_write]

/-- Witness for C1's amended claim: a live, non-full window is incremented
by exactly one, keeping its expiry. -/
theorem c1_witness :
    check_rate_limit "api" 2 5 3 [⟨"api", 1, 10⟩]
      = Except.ok (true, upsertRate ⟨"api", 2, 10⟩ [⟨"api", 1, 10⟩]) ∧
    windowFor "api" (upsertRate ⟨"api", 2, 10⟩ [⟨"api", 1, 10⟩])
      = some ⟨"api", 2, 10⟩ :=
  ((c1_check_rate_limit_amended "api" 2 5 3 [⟨"api", 1, 10⟩]).2
    ⟨"api", 1, 10⟩ (by decide)).2.2 (by decide) (by decide)

/-- Claim C2: `cache_get` returns a stored value exactly when a row for the
key exists with `now < expires`; an expired row still physically present in
the table behaves as absent. -/
theorem c2_cache_get_iff (key : String) (now : Nat) (st : List (CacheRow α))
    (hu : st.Pairwise (fun a b => a.key ≠ b.key)) (v : α) :
    cache_get key now st = some v
      ↔ ∃ e, e ∈ st ∧ e.key = key ∧ e.value = v ∧ now < e.expires := by
  induction st with
  | nil => simp [cache_get]
  | cons r rest ih =>
    rw [List.pairwise_cons] at hu
    obtain ⟨hr, hrest⟩ := hu
    rw [cache_get_cons]
    by_cases h : r.key = key ∧ now < r.expires
    · rw [if_pos h]
      constructor
      · intro h'
        exact ⟨r, List.mem_cons_self _ _, h.1, by injection h', h.2⟩
      · rintro ⟨e, he, hk, hv, hlt⟩
        rcases List.mem_cons.mp he with he' | he'
        · rw [he'] at hv
          rw [hv]
        · exact absurd (h.1.trans hk.symm) (hr e he')
    · rw [if_neg h]
      rw [ih hrest]
      constructor
      · rintro ⟨e, he, hk, hv, hlt⟩
        exact ⟨e, List.mem_cons_of_mem _ he, hk, hv, hlt⟩
      · rintro ⟨e, he, hk, hv, hlt⟩
        rcases List.mem_cons.mp he with he' | he'
        · exact absurd ⟨he' ▸ hk, he' ▸ hlt⟩ h
        · exact ⟨e, he', hk, hv, hlt⟩

/-- Witness for C2 on a concrete store holding only an expired row for the
key: both sides of the equivalence are false, so the physically present but
expired row is hidden. -/
theorem c2_witness :
    cache_get "k" 7 [(⟨"k", Json.num 1, 5⟩ : CacheRow Json)]
        = some (Json.num 1)
      ↔ ∃ e, e ∈ [(⟨"k", Json.num 1, 5⟩ : CacheRow Json)] ∧ e.key = "k"
          ∧ e.value = Json.num 1 ∧ 7 < e.expires :=
  c2_cache_get_iff "k" 7 [⟨"k", Json.num 1, 5⟩] (by decide) (Json.num 1)

/-- Claim C8: two `cache_set` calls on one key leave exactly one logical
entry for that key, holding the value and expiry of the later call — the
primary-key upsert makes the second write an overwrite, not a duplicate
insert. -/
theorem c8_cache_set_last_write_wins (k : String) (v1 v2 : α)
    (t1 t2 n1 n2 : Nat) (st : List (CacheRow α))
    (hu : st.Pairwise (fun a b => a.key ≠ b.key)) :
    (cache_set k v2 t2 n2 (cache_set k v1 t1 n1 st)).filter
        (fun r => decide (r.key = k))
      = [⟨k, v2, n2 + t2⟩] := by
  have h1 : (cache_set k v1 t1 n1 st).Pairwise (fun a b => a.key ≠ b.key) :=
    upsertCache_pairwise _ st hu
  exact upsertCache_filter ⟨k, v2, n2 + t2⟩ _ h1

/-- Witness for C8 on a store already holding the key and another key. -/
theorem c8_witness :
    (cache_set "k" (Json.num 2) 10 50
        (cache_set "k" (Json.num 1) 5 0
          [(⟨"j", Json.null, 9⟩ : CacheRow Json), ⟨"k", Json.num 0, 3⟩])).filter
        (fun r => decide (r.key = "k"))
      = [⟨"k", Json.num 2, 60⟩] :=
  c8_cache_set_last_write_wins "k" (Json.num 1) (Json.num 2) 5 10 0 50
    [⟨"j", Json.null, 9⟩, ⟨"k", Json.num 0, 3⟩] (by decide)

/-- Claim C9 is about the code as the spec requires it to be, and the code
violates it: the read-decide-write sequence of `check_rate_limit` is not an
atomic unit.  On a live window with one admission slot left (`limit = 2`,
stored count 1), two callers interleaved read-read-write-write both decide
against the same stale count, both UPDATE-commit successfully and both
return `true` — three admissions under a limit of two, with the lost
increment visible as a final count of 2; run serially, the second caller is
denied.  On an empty table the same interleaving instead makes caller B's
INSERT hit A's freshly inserted primary key and raise, rather than admit
both. -/
theorem c9_race_admits_both :
    race_two "api" 2 1 5 [⟨"api", 1, 10⟩]
      = (Except.ok true, Except.ok true, [⟨"api", 2, 10⟩]) ∧
    check_rate_limit "api" 2 1 5 [⟨"api", 1, 10⟩]
      = Except.ok (true, [⟨"api", 2, 10⟩]) ∧
    check_rate_limit "api" 2 1 5 [⟨"api", 2, 10⟩]
      = Except.ok (false, [⟨"api", 2, 10⟩]) ∧
    race_two "api" 1 1 0 []
      = (Except.ok true, Except.error dupKeyMsg, [⟨"api", 1, 1⟩]) := by
  decide

/-- Claim C5: two events with the same fingerprint (same address) processed
in sequence run the analysis step at most once — the first call analyzes and
stores the record, the second hits the cache, skips analysis and returns the
first call's cached analysis record. -/
theorem c5_pipeline_memoization (env1 env2 : Env) (now1 now2 : Nat)
    (e1 e2 : Event) (st : AnalyzerState) (a p r : Json)
    (rt1 rt2 : List RateRow)
    (h1 : check_rate_limit "api_requests" 10 1 now1 st.rate
      = Except.ok (true, rt1))
    (h2 : lookupKey e1 "address" = some a)
    (h3 : cache_get ("pair:" ++ a.pyStr) now1 st.cache = none)
    (h4 : env1.score e1 = Except.ok (p, r))
    (h5 : env1.cacheStoreOk = true)
    (h6 : lookupKey e2 "address" = some a)
    (h7 : check_rate_limit "api_requests" 10 1 now2
            (process_pair env1 now1 e1 st).st.rate = Except.ok (true, rt2))
    (h8 : now2 < now1 + 3600) :
    (process_pair env1 now1 e1 st).analyzed = true ∧
    (process_pair env2 now2 e2 (process_pair env1 now1 e1 st).st).analyzed
      = false ∧
    (process_pair env2 now2 e2 (process_pair env1 now1 e1 st).st).ret
      = some (_analyze_data e1 p r now1) ∧
    cache_get ("pair:" ++ a.pyStr) now2
        (process_pair env1 now1 e1 st).st.cache
      = some (_analyze_data e1 p r now1) := by
  have hrun : process_pair env1 now1 e1 st
      = runAnalysis env1 now1 e1 ("pair:" ++ a.pyStr)
          ⟨st.cache, rt1, st.bus⟩ :=
    process_pair_run env1 now1 e1 st a rt1 h1 h2 h3
  have hcache : (process_pair env1 now1 e1 st).st.cache
      = cache_set ("pair:" ++ a.pyStr) (_analyze_data e1 p r now1) 3600 now1
          st.cache := by
    rw [hrun]
    exact runAnalysis_cache_ok _ _ _ _ _ _ _ h4 h5
  have hget : cache_get ("pair:" ++ a.pyStr) now2
      (process_pair env1 now1 e1 st).st.cache
      = some (_analyze_data e1 p r now1) := by
    rw [hcache]
    exact cache_get_upsert_self _ _ _ _ _ h8
  have hisE : (_analyze_data e1 p r now1).isEmpty = false :=
    setKey_isEmpty _ _ _
  have hhit := process_pair_hit env2 now2 e2 _ a _ rt2 h7 h6 hget hisE
  refine ⟨?_, ?_, ?_, hget⟩
  · rw [hrun]
    exact runAnalysis_analyzed _ _ _ _ _
  · rw [hhit]
  · rw [hhit]

/-- Witness for C5: the same address submitted twice on an empty store; the
second call returns the cached record without invoking the scorer. -/
theorem c5_witness :
    (process_pair demoScoreOk 5 demoEvent demoState).analyzed = true ∧
    (process_pair demoScoreOk 6 demoEvent
        (process_pair demoScoreOk 5 demoEvent demoState).st).analyzed
      = false ∧
    (process_pair demoScoreOk 6 demoEvent
        (process_pair demoScoreOk 5 demoEvent demoState).st).ret
      = some (_analyze_data demoEvent (Json.num 7) (Json.num 8) 5) ∧
    cache_get ("pair:" ++ (Json.str "0xabc").pyStr) 6
        (process_pair demoScoreOk 5 demoEvent demoState).st.cache
      = some (_analyze_data demoEvent (Json.num 7) (Json.num 8) 5) :=
  c5_pipeline_memoization demoScoreOk demoScoreOk 5 6 demoEvent demoEvent
    demoState (Json.str "0xabc") (Json.num 7) (Json.num 8)
    [⟨"api_requests", 1, 6⟩] [⟨"api_requests", 2, 6⟩]
    (by decide) (by decide) (by decide) rfl rfl (by decide) (by decide)
    (by decide)

/-- Claim C6: an error raised inside the analyze, cache-store or publish
step of `process_pair` is caught inside `process_pair` (the call still
returns, with None), and a later, unrelated event processed on the
resulting state completes successfully: its analysis runs and its record is
cached. -/
theorem c6_failure_containment (env1 env2 : Env) (now1 now2 : Nat)
    (e1 e2 : Event) (st : AnalyzerState) (a1 a2 p r : Json) (m : String)
    (rt1 rt2 : List RateRow)
    (h1 : check_rate_limit "api_requests" 10 1 now1 st.rate
      = Except.ok (true, rt1))
    (h2 : lookupKey e1 "address" = some a1)
    (h3 : cache_get ("pair:" ++ a1.pyStr) now1 st.cache = none)
    (_hfail : env1.score e1 = Except.error m ∨ env1.cacheStoreOk = false
      ∨ env1.publishOk = false)
    (h4 : check_rate_limit "api_requests" 10 1 now2
            (process_pair env1 now1 e1 st).st.rate = Except.ok (true, rt2))
    (h5 : lookupKey e2 "address" = some a2)
    (h6 : cache_get ("pair:" ++ a2.pyStr) now2
            (process_pair env1 now1 e1 st).st.cache = none)
    (h7 : env2.score e2 = Except.ok (p, r))
    (h8 : env2.cacheStoreOk = true) :
    (process_pair env1 now1 e1 st).ret = none ∧
    (process_pair env2 now2 e2 (process_pair env1 now1 e1 st).st).analyzed
      = true ∧
    cache_get ("pair:" ++ a2.pyStr) now2
        (process_pair env2 now2 e2
          (process_pair env1 now1 e1 st).st).st.cache
      = some (_analyze_data e2 p r now2) := by
  have hrun1 := process_pair_run env1 now1 e1 st a1 rt1 h1 h2 h3
  have hrun2 := process_pair_run env2 now2 e2
    (process_pair env1 now1 e1 st).st a2 rt2 h4 h5 h6
  refine ⟨?_, ?_, ?_⟩
  · rw [hrun1]
    exact runAnalysis_ret _ _ _ _ _
  · rw [hrun2]
    exact runAnalysis_analyzed _ _ _ _ _
  · rw [hrun2, runAnalysis_cache_ok _ _ _ _ _ _ _ h7 h8]
    exact cache_get_upsert_self _ _ _ _ _ (by omega)

/-- Witness for C6: the first event's analysis raises; the second, unrelated
event still completes and is cached. -/
theorem c6_witness :
    (process_pair demoScoreFail 5 demoEvent demoState).ret = none ∧
    (process_pair demoScoreOk 6 demoEvent2
        (process_pair demoScoreFail 5 demoEvent demoState).st).analyzed
      = true ∧
    cache_get ("pair:" ++ (Json.str "0xeee").pyStr) 6
        (process_pair demoScoreOk 6 demoEvent2
          (process_pair demoScoreFail 5 demoEvent demoState).st).st.cache
      = some (_analyze_data demoEvent2 (Json.num 7) (Json.num 8) 6) :=
  c6_failure_containment demoScoreFail demoScoreOk 5 6 demoEvent demoEvent2
    demoState (Json.str "0xabc") (Json.str "0xeee") (Json.num 7) (Json.num 8)
    "model failure" [⟨"api_requests", 1, 6⟩] [⟨"api_requests", 2, 6⟩]
    (by decide) (by decide) (by decide) (Or.inl rfl)
    (by decide) (by decide) (by decide) rfl rfl

/-- Claim C7: when the publish step fails after the analysis record was
stored, the call still returns None, the cached record is exactly the one
`cache_set` wrote and remains readable, and the signal table is unchanged —
the publish failure neither rolls back nor removes the cache entry. -/
theorem c7_publish_failure_keeps_cache (env : Env) (now : Nat) (data : Event)
    (st : AnalyzerState) (a p r : Json) (rt : List RateRow)
    (h1 : check_rate_limit "api_requests" 10 1 now st.rate
      = Except.ok (true, rt))
    (h2 : lookupKey data "address" = some a)
    (h3 : cache_get ("pair:" ++ a.pyStr) now st.cache = none)
    (h4 : env.score data = Except.ok (p, r))
    (h5 : env.cacheStoreOk = true)
    (h6 : env.publishOk = false) :
    (process_pair env now data st).ret = none ∧
    (process_pair env now data st).st.cache
      = cache_set ("pair:" ++ a.pyStr) (_analyze_data data p r now) 3600 now
          st.cache ∧
    cache_get ("pair:" ++ a.pyStr) now (process_pair env now data st).st.cache
      = some (_analyze_data data p r now) ∧
    (process_pair env now data st).st.bus = st.bus := by
  have hrun := process_pair_run env now data st a rt h1 h2 h3
  refine ⟨?_, ?_, ?_, ?_⟩
  · rw [hrun]
    exact runAnalysis_ret _ _ _ _ _
  · rw [hrun]
    exact runAnalysis_cache_ok _ _ _ _ _ _ _ h4 h5
  · rw [hrun, runAnalysis_cache_ok _ _ _ _ _ _ _ h4 h5]
    exact cache_get_upsert_self _ _ _ _ _ (by omega)
  · rw [hrun]
    exact runAnalysis_bus_nopub _ _ _ _ _ h6

/-- Witness for C7: a truthy-signal event under a failing publisher keeps
its record cached and leaves the signal table empty. -/
theorem c7_witness :
    (process_pair demoNoPub 5 demoEvent demoState).ret = none ∧
    (process_pair demoNoPub 5 demoEvent demoState).st.cache
      = cache_set ("pair:" ++ (Json.str "0xabc").pyStr)
          (_analyze_data demoEvent (Json.num 7) (Json.num 8) 5) 3600 5
          demoState.cache ∧
    cache_get ("pair:" ++ (Json.str "0xabc").pyStr) 5
        (process_pair demoNoPub 5 demoEvent demoState).st.cache
      = some (_analyze_data demoEvent (Json.num 7) (Json.num 8) 5) ∧
    (process_pair demoNoPub 5 demoEvent demoState).st.bus = demoState.bus :=
  c7_publish_failure_keeps_cache demoNoPub 5 demoEvent demoState
    (Json.str "0xabc") (Json.num 7) (Json.num 8) [⟨"api_requests", 1, 6⟩]
    (by decide) (by decide) (by decide) rfl rfl rfl

/-- Claim C10: the analysis record is the event's fields merged with
`pump_prob`, `rug_prob` and `timestamp`, so the publish gate reads the
event's own `signal` field: a signal is published exactly when the event
carries a truthy `signal` value, and an event without a `signal` key raises
a KeyError after the record was cached — caught by the per-event handler,
leaving the entry cached and publishing nothing. -/
theorem c10_signal_gate (env : Env) (now : Nat) (data : Event)
    (st : AnalyzerState) (a p r : Json) (rt : List RateRow)
    (h1 : check_rate_limit "api_requests" 10 1 now st.rate
      = Except.ok (true, rt))
    (h2 : lookupKey data "address" = some a)
    (h3 : cache_get ("pair:" ++ a.pyStr) now st.cache = none)
    (h4 : env.score data = Except.ok (p, r))
    (h5 : env.cacheStoreOk = true)
    (h6 : env.publishOk = true) :
    lookupKey (_analyze_data data p r now) "signal"
      = lookupKey data "signal" ∧
    (∀ sv, lookupKey data "signal" = some sv → sv.truthy = true →
      (process_pair env now data st).st.bus
        = publish_signal "trading" (_analyze_data data p r now) now st.bus) ∧
    (∀ sv, lookupKey data "signal" = some sv → sv.truthy = false →
      (process_pair env now data st).st.bus = st.bus) ∧
    (lookupKey data "signal" = none →
      (process_pair env now data st).ret = none ∧
      (process_pair env now data st).st.bus = st.bus ∧
      cache_get ("pair:" ++ a.pyStr) now
          (process_pair env now data st).st.cache
        = some (_analyze_data data p r now)) := by
  have hrun := process_pair_run env now data st a rt h1 h2 h3
  have hsig : lookupKey (_analyze_data data p r now) "signal"
      = lookupKey data "signal" := by
    unfold _analyze_data
    rw [lookup_setKey_ne _ _ _ _ (by decide),
        lookup_setKey_ne _ _ _ _ (by decide),
        lookup_setKey_ne _ _ _ _ (by decide)]
  refine ⟨hsig, ?_, ?_, ?_⟩
  · intro sv hsv htr
    rw [hrun, runAnalysis_bus_pub _ _ _ _ _ _ _ _ h4 h5 (hsig.trans hsv),
      htr, h6]
    simp
  · intro sv hsv htr
    rw [hrun, runAnalysis_bus_pub _ _ _ _ _ _ _ _ h4 h5 (hsig.trans hsv),
      htr]
    simp
  · intro hnone
    refine ⟨?_, ?_, ?_⟩
    · rw [hrun]
      exact runAnalysis_ret _ _ _ _ _
    · rw [hrun]
      exact runAnalysis_bus_nosignal _ _ _ _ _ _ _ h4 h5 (hsig.trans hnone)
    · rw [hrun, runAnalysis_cache_ok _ _ _ _ _ _ _ h4 h5]
      exact cache_get_upsert_self _ _ _ _ _ (by omega)

/-- Witness for C10: an event with no `signal` key has its gate lookup equal
to the event's own (absent) field; the call returns None, publishes nothing,
and the record stays cached. -/
theorem c10_witness :
    lookupKey (_analyze_data demoEventNoSignal (Json.num 7) (Json.num 8) 5)
        "signal" = lookupKey demoEventNoSignal "signal" ∧
    (process_pair demoScoreOk 5 demoEventNoSignal demoState).ret = none ∧
    (process_pair demoScoreOk 5 demoEventNoSignal demoState).st.bus
      = demoState.bus ∧
    cache_get ("pair:" ++ (Json.str "0xdef").pyStr) 5
        (process_pair demoScoreOk 5 demoEventNoSignal demoState).st.cache
      = some (_analyze_data demoEventNoSignal (Json.num 7) (Json.num 8) 5) :=
  have h := c10_signal_gate demoScoreOk 5 demoEventNoSignal demoState
    (Json.str "0xdef") (Json.num 7) (Json.num 8) [⟨"api_requests", 1, 6⟩]
    (by decide) (by decide) (by decide) rfl rfl rfl
  ⟨h.1, (h.2.2.2 (by decide)).1, (h.2.2.2 (by decide)).2.1,
   (h.2.2.2 (by decide)).2.2⟩

end DexScreener


